import Mathlib

/-!
Shallow embedding of `tensorflow/compiler/mlir/tfrt/transforms/lmhlo_to_gpu/lmhlo_to_gpu.cc`
(the `ConvertLmhloToGpuPass` MLIR conversion pass).

The file models, in order:
* the operation-kind vocabulary and the type vocabulary the pass touches;
* the operation/region tree (an MLIR module);
* the type converter (`tfrt::gpu::CreateMemrefToTfrtGpuConverter`, external
  to the repository, modelled from the spec);
* the streamify wrap target (`wrap_target`, lines 95-103 of the source);
* the legality oracle (`target`, lines 105-123 of the source);
* the conversion driver (`applyPartialConversion`, external, modelled from
  the spec) and the pass entry point `runOnOperation` (lines 76-128).
-/

namespace LmhloToGpu

/-- The MLIR dialects named by the pass: source dialects (lmhlo, lmhlo_gpu,
memref, func, builtin), destination dialects (gpu, tfrt, tfrt_gpu, xlir). -/
inductive Dialect where
  | gpu
  | tfrt
  | tfrt_gpu
  | xlir
  | lmhlo
  | lmhlo_gpu
  | memref
  | func
  | builtin
deriving DecidableEq, Repr

/-- Operation kinds. Every operation kind the conversion target of
`ConvertLmhloToGpuPass::runOnOperation` classifies explicitly gets its own
constructor; the remaining kinds are grouped by dialect with the op name
carried as a string (`lmhlo_op` covers lmhlo ops that are not among the
twelve listed wrap-target ops, e.g. `lmhlo.fusion`, which lowers to the gpu
dialect). -/
inductive OpKind where
  | memref_reinterpret_cast
  | memref_view
  | memref_alloca
  | memref_alloc
  | memref_dealloc
  | memref_load
  | func_func
  | func_call
  | func_return
  | tfrt_call
  | tfrt_return
  | tfrt_while
  | tfrt_gpu_streamify
  | lmhlo_all_gather
  | lmhlo_all_reduce
  | lmhlo_reduce_scatter
  | lmhlo_all_to_all
  | lmhlo_collective_permute
  | lmhlo_custom_call
  | lmhlo_triangular_solve
  | lmhlo_replica_id
  | lmhlo_partition_id
  | lmhlo_infeed
  | lmhlo_outfeed
  | lmhlo_fft
  | lmhlo_op (name : String)
  | lmhlo_gpu_op (name : String)
  | gpu_op (name : String)
  | tfrt_op (name : String)
  | tfrt_gpu_op (name : String)
  | builtin_module
  | generic (dialect : String) (name : String)
deriving DecidableEq, Repr

/-- Value types: `memref` is the source buffer type; `gpuBuffer`, `stream`
and `chain` are the tfrt_gpu runtime-handle types; `scalar` covers the
remaining types (index, integers, floats), which both type domains share. -/
inductive Ty where
  | memref
  | gpuBuffer
  | stream
  | chain
  | scalar (name : String)
deriving DecidableEq, Repr

mutual
/-- An MLIR operation: a kind, operand types, result types, and nested
regions. For `func_func`, whose signature is an attribute in MLIR, the
operand/result type lists model the function type's inputs/results. -/
inductive Op where
  | mk (kind : OpKind) (operandTys : List Ty) (resultTys : List Ty)
       (regions : List Region) : Op

/-- A region: one block with its block-argument types and its operations. -/
inductive Region where
  | mk (blockArgTys : List Ty) (body : List Op) : Region
end

/-- The kind tag of an operation. -/
def Op.kind : Op → OpKind
  | .mk k _ _ _ => k

/-- The operand types of an operation. -/
def Op.operandTys : Op → List Ty
  | .mk _ o _ _ => o

/-- The result types of an operation. -/
def Op.resultTys : Op → List Ty
  | .mk _ _ r _ => r

/-- The regions of an operation. -/
def Op.regions : Op → List Region
  | .mk _ _ _ regs => regs

/-- The body of a region. -/
def Region.body : Region → List Op
  | .mk _ b => b

/-- The block-argument types of a region. -/
def Region.blockArgTys : Region → List Ty
  | .mk a _ => a

/-! ## Type converter

`tfrt::gpu::CreateMemrefToTfrtGpuConverter()` lives in the tf_runtime
repository, not under this one. -/

/-- Modelled from the spec: `CreateMemrefToTfrtGpuConverter` is missing from
the repository; the spec's Type Converter contract says `convert(sourceType)
-> targetType`, a pure function of its input type, mapping buffer types to
runtime-handle types and leaving already-converted types unchanged. -/
def convertType : Ty → Option Ty
  | .memref => some .gpuBuffer
  | t => some t

/-- A type is legal for the converter when conversion maps it to itself
(MLIR `TypeConverter::isLegal(Type)`). -/
def tyLegal (t : Ty) : Bool :=
  convertType t = some t

/-- `TypeConverter::isSignatureLegal`: every input and result type of the
function type is legal. -/
def isSignatureLegal (inputs results : List Ty) : Bool :=
  inputs.all tyLegal && results.all tyLegal

/-- `TypeConverter::isLegal(Region*)`: the block-argument types of every
block of the region are legal. -/
def regionArgsLegal (r : Region) : Bool :=
  r.blockArgTys.all tyLegal

/-- `converter.isLegal` over a list of regions (the op's body). -/
def regionsArgsLegal (regs : List Region) : Bool :=
  regs.all regionArgsLegal

/-- `TypeConverter::isLegal(Operation*)`: all operand and result types of
the operation are legal. -/
def opTypesLegal (op : Op) : Bool :=
  op.operandTys.all tyLegal && op.resultTys.all tyLegal

/-! ## The streamify wrap target (source lines 95-103)

```
ConversionTarget wrap_target(*context);
wrap_target.addLegalDialect<lmhlo_gpu::LmhloGpuDialect>();
wrap_target.addLegalOp<
    lmhlo::AllGatherOp, lmhlo::AllReduceOp, lmhlo::ReduceScatterOp,
    lmhlo::AllToAllOp, lmhlo::CollectivePermuteOp, lmhlo::CustomCallOp,
    lmhlo::TriangularSolveOp, lmhlo::ReplicaIdOp, lmhlo::PartitionIdOp,
    lmhlo::InfeedOp, lmhlo::OutfeedOp, lmhlo::FftOp>();
tfrt::gpu::populateStreamifyConversionPatterns(patterns, converter, wrap_target);
```
-/

/-- Kinds belonging to the `lmhlo_gpu` dialect
(`wrap_target.addLegalDialect<lmhlo_gpu::LmhloGpuDialect>()`). -/
def isLmhloGpuDialectOp : OpKind → Bool
  | .lmhlo_gpu_op _ => true
  | _ => false

/-- The twelve lmhlo ops of `wrap_target.addLegalOp<...>` (source lines
97-101). -/
def isListedLmhloOp : OpKind → Bool
  | .lmhlo_all_gather | .lmhlo_all_reduce | .lmhlo_reduce_scatter
  | .lmhlo_all_to_all | .lmhlo_collective_permute | .lmhlo_custom_call
  | .lmhlo_triangular_solve | .lmhlo_replica_id | .lmhlo_partition_id
  | .lmhlo_infeed | .lmhlo_outfeed | .lmhlo_fft => true
  | _ => false

/-- Modelled from the spec: `populateStreamifyConversionPatterns` is missing
from the repository; the source comment (lines 92-94) says "TFRT ops are
added to 'wrap_target' inside populateStreamifyConversionPatterns()", so the
ops of the tfrt and tfrt_gpu dialects (other than the structural
`tfrt_gpu.streamify` wrapper itself and the explicitly classified tfrt
call/return/while ops) are also claimed by the wrap target. -/
def streamifyAddedTfrtOp : OpKind → Bool
  | .tfrt_op _ | .tfrt_gpu_op _ => true
  | _ => false

/-- `wrap_target.isLegal(op)`: the op is claimed by the "needs async
context" wrap set — i.e. it must be wrapped in `tfrt_gpu.streamify` before
being lowered directly to tfrt_gpu ops. -/
def wrapTargetIsLegal (k : OpKind) : Bool :=
  isLmhloGpuDialectOp k || isListedLmhloOp k || streamifyAddedTfrtOp k

/-! ## The legality oracle (source lines 105-123) -/

/-- Kinds the conversion target classifies explicitly: the five always
illegal memref ops, `func.func`, `tfrt_gpu.streamify`, the five
call/return/while ops, and `memref.load`. Every other kind falls to
`markUnknownOpDynamicallyLegal`. -/
def explicitlyClassified : OpKind → Bool
  | .memref_reinterpret_cast | .memref_view | .memref_alloca
  | .memref_alloc | .memref_dealloc | .memref_load
  | .func_func | .tfrt_gpu_streamify
  | .tfrt_call | .tfrt_return | .tfrt_while
  | .func_call | .func_return => true
  | _ => false

/-- Whether the parent operation is a `tfrt_gpu.streamify` op
(`isa<tfrt::gpu::StreamifyOp>(op->getParentOp())`). -/
def parentIsStreamify : Option OpKind → Bool
  | some .tfrt_gpu_streamify => true
  | _ => false

/-- The legality oracle of `ConvertLmhloToGpuPass::runOnOperation` applied
to one operation instance (given the kind of its parent operation):
* `memref.reinterpret_cast/view/alloca/alloc/dealloc` — `addIllegalOp`,
  never legal;
* `func.func` — legal iff `converter.isSignatureLegal(getFunctionType())`
  and `converter.isLegal(&getBody())`;
* `tfrt_gpu.streamify` — legal iff `converter.isLegal(&body())`;
* `tfrt.call/return/while`, `func.call/return` — legal iff
  `converter.isLegal(op)`;
* `memref.load` — legal iff its parent op is a `tfrt_gpu.streamify`;
* every other kind — `markUnknownOpDynamicallyLegal`: legal iff
  `!wrap_target.isLegal(op)`. -/
def legalOpShallow (parent : Option OpKind) (op : Op) : Bool :=
  match op.kind with
  | .memref_reinterpret_cast | .memref_view | .memref_alloca
  | .memref_alloc | .memref_dealloc => false
  | .func_func => isSignatureLegal op.operandTys op.resultTys &&
      regionsArgsLegal op.regions
  | .tfrt_gpu_streamify => regionsArgsLegal op.regions
  | .tfrt_call | .tfrt_return | .tfrt_while | .func_call | .func_return =>
      opTypesLegal op
  | .memref_load => parentIsStreamify parent
  | k => ! wrapTargetIsLegal k

/-! ## The region wrapper (streamify)

`tfrt::gpu::populateStreamifyConversionPatterns` is external to the
repository; the spec's Region Wrapper section says: group maximal contiguous
runs of "needs async context" operations within a region and replace each
run with one `tfrt_gpu.streamify` operation whose body region contains the
run, with the stream and chain tokens provided as block arguments. -/

/-- An operation needs wrapping when the wrap target claims its kind. -/
def needsWrap (op : Op) : Bool :=
  wrapTargetIsLegal op.kind

/-- Modelled from the spec: the wrapping operation introduced for one run —
a `tfrt_gpu.streamify` op whose body holds the run and whose block arguments
provide the stream and chain tokens; the op's own result threads the
completion token out. -/
def mkStreamify (run : List Op) : Op :=
  .mk .tfrt_gpu_streamify [] [.chain] [.mk [.stream, .chain] run]

/-- Flush the pending run of wrap-needing ops in front of the processed
suffix: an empty run adds nothing, a nonempty run becomes one streamify op. -/
def flushRun (run done : List Op) : List Op :=
  match run with
  | [] => done
  | _ => mkStreamify run :: done

/-- Core of the run grouping: processing a list of sibling operations from
the right, returns the maximal prefix run of wrap-needing ops together with
the already-grouped remainder. -/
def groupRunsCore : List Op → List Op × List Op
  | [] => ([], [])
  | o :: os =>
    let p := groupRunsCore os
    if needsWrap o then (o :: p.1, p.2)
    else ([], o :: flushRun p.1 p.2)

/-- Modelled from the spec: group the maximal contiguous runs of
wrap-needing operations of one block and wrap each run in a streamify op,
leaving the other operations in place and in order. -/
def groupRuns (l : List Op) : List Op :=
  flushRun (groupRunsCore l).1 (groupRunsCore l).2

mutual
/-- Apply the region wrapper below one operation (inside its regions). -/
def wrapOp : Op → Op
  | .mk k o r regs => .mk k o r (wrapRegions regs)

/-- Apply the region wrapper to each region of a list. -/
def wrapRegions : List Region → List Region
  | [] => []
  | r :: rs => wrapRegion r :: wrapRegions rs

/-- Apply the region wrapper inside a region, then group the region's own
operation list into streamify runs. -/
def wrapRegion : Region → Region
  | .mk args body => .mk args (groupRuns (wrapOps body))

/-- Apply the region wrapper below each operation of a block. -/
def wrapOps : List Op → List Op
  | [] => []
  | o :: os => wrapOp o :: wrapOps os
end

/-- Modelled from the spec: the Region Wrapper pre-pass over the whole
module (the module's top-level operations and, recursively, every region). -/
def wrapModule (m : List Op) : List Op :=
  groupRuns (wrapOps m)

/-! ## Patterns and the conversion driver

`applyPartialConversion` and the bodies of the nine lowering-rule providers
are external to the repository (MLIR core and the provider translation
units); the driver is modelled from the spec's Conversion Driver section. -/

/-- Modelled from the spec: a rewrite pattern — a match predicate over an
operation, a rewrite function producing the replacement operations, and a
declared benefit. -/
structure Pattern where
  benefit : Nat
  opMatches : Op → Bool
  rewrite : Op → List Op

/-- Modelled from the spec: select the pattern applied to an illegal
operation — among the matching patterns, the highest declared benefit wins
and ties are broken by registration order (first registered wins). -/
def selectPattern (ps : List Pattern) (op : Op) : Option Pattern :=
  ps.foldl
    (fun acc p =>
      if p.opMatches op then
        match acc with
        | none => some p
        | some q => if q.benefit < p.benefit then some p else some q
      else acc)
    none

/-- Outcome of looking for one rewrite in a subtree: the subtree is fully
legal, or one rewrite was performed, or an illegal operation with no
applicable pattern was found. -/
inductive StepOut (α : Type) where
  | clean
  | rewritten (a : α)
  | stuck
deriving DecidableEq

mutual
/-- One driver step at an operation: an illegal operation is rewritten by
its selected pattern (stuck if no pattern matches); a legal operation is
searched for illegal operations inside its regions. -/
def stepOp (parent : Option OpKind) (ps : List Pattern) :
    Op → StepOut (List Op)
  | .mk k o r regs =>
    if legalOpShallow parent (.mk k o r regs) then
      match stepRegions k ps regs with
      | .clean => .clean
      | .stuck => .stuck
      | .rewritten regs2 => .rewritten [.mk k o r regs2]
    else
      match selectPattern ps (.mk k o r regs) with
      | some p => .rewritten (p.rewrite (.mk k o r regs))
      | none => .stuck

/-- One driver step inside the regions of an operation of kind `k`. -/
def stepRegions (k : OpKind) (ps : List Pattern) :
    List Region → StepOut (List Region)
  | [] => .clean
  | r :: rs =>
    match stepRegion k ps r with
    | .rewritten r2 => .rewritten (r2 :: rs)
    | .stuck => .stuck
    | .clean =>
      match stepRegions k ps rs with
      | .clean => .clean
      | .stuck => .stuck
      | .rewritten rs2 => .rewritten (r :: rs2)

/-- One driver step inside a region of an operation of kind `k`. -/
def stepRegion (k : OpKind) (ps : List Pattern) : Region → StepOut Region
  | .mk args body =>
    match stepOps (some k) ps body with
    | .clean => .clean
    | .stuck => .stuck
    | .rewritten body2 => .rewritten (.mk args body2)

/-- One driver step over a block of sibling operations (their parent has
kind `parent`): rewrite at the first illegal operation found in pre-order. -/
def stepOps (parent : Option OpKind) (ps : List Pattern) :
    List Op → StepOut (List Op)
  | [] => .clean
  | o :: os =>
    match stepOp parent ps o with
    | .rewritten l => .rewritten (l ++ os)
    | .stuck => .stuck
    | .clean =>
      match stepOps parent ps os with
      | .clean => .clean
      | .stuck => .stuck
      | .rewritten os2 => .rewritten (o :: os2)
end

/-- Outcome of the conversion driver: every operation is legal, or the
driver is stuck (an illegal operation remains with no applicable pattern,
or no fixpoint was reached within the step bound). -/
inductive DriverOutcome where
  | legal (m : List Op)
  | stuck

/-- Modelled from the spec: the driver loop — repeatedly rewrite the first
illegal operation until the module is fully legal (success) or no progress
is possible (Stuck); the fuel bounds the number of rewrite steps, so the
loop never runs forever. -/
def driverLoop (ps : List Pattern) : Nat → List Op → DriverOutcome
  | 0, _ => .stuck
  | fuel + 1, m =>
    match stepOps (some .builtin_module) ps m with
    | .clean => .legal m
    | .stuck => .stuck
    | .rewritten m2 => driverLoop ps fuel m2

mutual
/-- The number of operations in the subtree rooted at an operation. -/
def opSize : Op → Nat
  | .mk _ _ _ regs => 1 + regionsSize regs

/-- The number of operations under a list of regions. -/
def regionsSize : List Region → Nat
  | [] => 0
  | r :: rs => regionSize r + regionsSize rs

/-- The number of operations inside a region. -/
def regionSize : Region → Nat
  | .mk _ body => opsSize body

/-- The number of operations in a block, nested ones included. -/
def opsSize : List Op → Nat
  | [] => 0
  | o :: os => opSize o + opsSize os
end

/-- Modelled from the spec: the number of rewrite steps the driver grants —
finite, a function of the input graph's size and the pattern count ("bounded
by graph size and pattern count"). -/
def convFuel (ps : List Pattern) (m : List Op) : Nat :=
  (opsSize m + 1) * (ps.length + 1)

/-- Modelled from the spec: `applyPartialConversion(getOperation(), target,
patterns)` — run the driver on the module body until the legality oracle
accepts every operation or the driver is stuck. -/
def applyPartialConversion (ps : List Pattern) (m : List Op) : DriverOutcome :=
  driverLoop ps (convFuel ps m) m

/-! ## Recursive legality and kind queries -/

mutual
/-- An operation and every operation nested below it satisfy the legality
oracle (`parent` is the kind of the enclosing operation). -/
def opLegal (parent : Option OpKind) : Op → Bool
  | .mk k o r regs =>
    legalOpShallow parent (.mk k o r regs) && regionsLegal k regs

/-- Every operation under each region of the list is legal (`k` is the kind
of the owning operation). -/
def regionsLegal (k : OpKind) : List Region → Bool
  | [] => true
  | r :: rs => regionLegal k r && regionsLegal k rs

/-- Every operation inside a region is legal. -/
def regionLegal (k : OpKind) : Region → Bool
  | .mk _ body => opsLegal k body

/-- Every operation of a block (and below) is legal; the ops' parent has
kind `k`. -/
def opsLegal (k : OpKind) : List Op → Bool
  | [] => true
  | o :: os => opLegal (some k) o && opsLegal k os
end

/-- Every operation of the module satisfies the legality oracle (the
module's top-level ops have the builtin module op as parent). -/
def moduleLegal (m : List Op) : Bool :=
  opsLegal .builtin_module m

mutual
/-- Some operation in the subtree rooted at the given op has a kind
satisfying `p`. -/
def opContainsKind (p : OpKind → Bool) : Op → Bool
  | .mk k _ _ regs => p k || regionsContainKind p regs

/-- Some operation under a region of the list has a kind satisfying `p`. -/
def regionsContainKind (p : OpKind → Bool) : List Region → Bool
  | [] => false
  | r :: rs => regionContainsKind p r || regionsContainKind p rs

/-- Some operation inside the region has a kind satisfying `p`. -/
def regionContainsKind (p : OpKind → Bool) : Region → Bool
  | .mk _ body => opsContainKind p body

/-- Some operation of the block (or below) has a kind satisfying `p`. -/
def opsContainKind (p : OpKind → Bool) : List Op → Bool
  | [] => false
  | o :: os => opContainsKind p o || opsContainKind p os
end

/-- The five memref operation kinds of `target.addIllegalOp<...>` (source
lines 106-107): `memref.reinterpret_cast`, `memref.view`, `memref.alloca`,
`memref.alloc`, `memref.dealloc`. -/
def isBannedMemrefOp : OpKind → Bool
  | .memref_reinterpret_cast | .memref_view | .memref_alloca
  | .memref_alloc | .memref_dealloc => true
  | _ => false

/-! ## The pass -/

/-- Result of running the pass: the converted module, or pass failure
(`signalPassFailure`), which carries no graph. -/
inductive PassResult where
  | success (m : List Op)
  | failure

/-- `ConvertLmhloToGpuPass::runOnOperation`, with the patterns contributed
by the nine external providers abstracted as `ps`: the streamify region
wrapper restructures the module, then `applyPartialConversion` runs the
driver against the conversion target; if the conversion failed the pass
calls `signalPassFailure` and returns no converted graph. -/
def runOnOperation (ps : List Pattern) (m : List Op) : PassResult :=
  match applyPartialConversion ps (wrapModule m) with
  | .legal out => .success out
  | .stuck => .failure

/-- The driver phase of the pass, taken alone: hand the assembled patterns
and the conversion target to `applyPartialConversion` and signal pass
failure if the conversion failed. -/
def conversionPhase (ps : List Pattern) (b : List Op) : PassResult :=
  match applyPartialConversion ps b with
  | .legal out => .success out
  | .stuck => .failure

/-- The statements of `ConvertLmhloToGpuPass::runOnOperation` in source
order, named as events. -/
inductive PassStep where
  | createConverter
  | populateCcl
  | populateCholesky
  | populateConvolution
  | populateCustomCall
  | populateGemm
  | populateInfeedOutfeed
  | populateReplicaPartition
  | populateTriangularSolve
  | populateFft
  | buildWrapTarget
  | populateStreamify
  | buildTarget
  | applyConversion
deriving DecidableEq, Repr

/-- The order of `runOnOperation`'s statements, transcribed from source
lines 77-127. -/
def runOnOperationTrace : List PassStep :=
  [.createConverter, .populateCcl, .populateCholesky, .populateConvolution,
   .populateCustomCall, .populateGemm, .populateInfeedOutfeed,
   .populateReplicaPartition, .populateTriangularSolve, .populateFft,
   .buildWrapTarget, .populateStreamify, .buildTarget, .applyConversion]

/-! ## The nine rule providers and the shared type converter -/

/-- The nine pattern providers `runOnOperation` calls (source lines 80-88
and 102-103 declare them; their bodies are external translation units). -/
inductive Provider where
  | ccl
  | cholesky
  | convolution
  | customCall
  | gemm
  | infeedOutfeed
  | replicaPartition
  | triangularSolve
  | fft
deriving DecidableEq, Repr

/-- The type conversion as triggered through a given provider's patterns:
every `populate...ConversionPattern(patterns, converter)` call receives the
same `converter` object (source lines 78-88), so each provider converts with
`convertType`. -/
def providerConvert (p : Provider) (t : Ty) : Option Ty :=
  match p with
  | .ccl => convertType t
  | .cholesky => convertType t
  | .convolution => convertType t
  | .customCall => convertType t
  | .gemm => convertType t
  | .infeedOutfeed => convertType t
  | .replicaPartition => convertType t
  | .triangularSolve => convertType t
  | .fft => convertType t

/-! ## Dependent dialects -/

/-- `ConvertLmhloToGpuPass::getDependentDialects` (source lines 65-69):
`registry.insert<mlir::gpu::GPUDialect, tfrt::compiler::TFRTDialect,
tfrt::gpu::GpuDialect, xla::gpu::XlirDialect>()`. -/
def dependentDialects : List Dialect :=
  [.gpu, .tfrt, .tfrt_gpu, .xlir]

/-! ## Helper lemmas -/

@[simp]
theorem Op.kind_mk (k : OpKind) (o r : List Ty) (regs : List Region) :
    (Op.mk k o r regs).kind = k := rfl

@[simp]
theorem Op.operandTys_mk (k : OpKind) (o r : List Ty) (regs : List Region) :
    (Op.mk k o r regs).operandTys = o := rfl

@[simp]
theorem Op.resultTys_mk (k : OpKind) (o r : List Ty) (regs : List Region) :
    (Op.mk k o r regs).resultTys = r := rfl

@[simp]
theorem Op.regions_mk (k : OpKind) (o r : List Ty) (regs : List Region) :
    (Op.mk k o r regs).regions = regs := rfl

mutual
/-- If the driver finds no rewrite to perform at an operation, the whole
subtree satisfies the legality oracle. -/
theorem stepOp_clean_legal (parent : Option OpKind) (ps : List Pattern)
    (o : Op) (h : stepOp parent ps o = .clean) : opLegal parent o = true := by
  match o with
  | .mk k op r regs =>
    rw [stepOp] at h
    rw [opLegal]
    by_cases hl : legalOpShallow parent (.mk k op r regs) = true
    · simp only [hl, if_true] at h
      simp only [hl, Bool.true_and]
      cases hr : stepRegions k ps regs with
      | clean => exact stepRegions_clean_legal k ps regs hr
      | stuck => rw [hr] at h; simp at h
      | rewritten x => rw [hr] at h; simp at h
    · simp only [Bool.not_eq_true] at hl
      rw [hl] at h
      simp only [Bool.false_eq_true, if_false] at h
      cases hs : selectPattern ps (.mk k op r regs) with
      | none => rw [hs] at h; simp at h
      | some p => rw [hs] at h; simp at h

/-- If the driver finds no rewrite under a list of regions, every operation
below them is legal. -/
theorem stepRegions_clean_legal (k : OpKind) (ps : List Pattern)
    (regs : List Region) (h : stepRegions k ps regs = .clean) :
    regionsLegal k regs = true := by
  match regs with
  | [] => rw [regionsLegal]
  | r :: rs =>
    rw [stepRegions] at h
    rw [regionsLegal]
    cases h1 : stepRegion k ps r with
    | clean =>
      rw [h1] at h
      cases h2 : stepRegions k ps rs with
      | clean =>
        simp [stepRegion_clean_legal k ps r h1,
          stepRegions_clean_legal k ps rs h2]
      | stuck => rw [h2] at h; simp at h
      | rewritten x => rw [h2] at h; simp at h
    | stuck => rw [h1] at h; simp at h
    | rewritten x => rw [h1] at h; simp at h

/-- If the driver finds no rewrite inside a region, every operation inside
it is legal. -/
theorem stepRegion_clean_legal (k : OpKind) (ps : List Pattern) (r : Region)
    (h : stepRegion k ps r = .clean) : regionLegal k r = true := by
  match r with
  | .mk args body =>
    rw [stepRegion] at h
    rw [regionLegal]
    cases h1 : stepOps (some k) ps body with
    | clean => exact stepOps_clean_legal k ps body h1
    | stuck => rw [h1] at h; simp at h
    | rewritten x => rw [h1] at h; simp at h

/-- If the driver finds no rewrite over a block, every operation of the
block (and below) is legal. -/
theorem stepOps_clean_legal (k : OpKind) (ps : List Pattern) (l : List Op)
    (h : stepOps (some k) ps l = .clean) : opsLegal k l = true := by
  match l with
  | [] => rw [opsLegal]
  | o :: os =>
    rw [stepOps] at h
    rw [opsLegal]
    cases h1 : stepOp (some k) ps o with
    | clean =>
      rw [h1] at h
      cases h2 : stepOps (some k) ps os with
      | clean =>
        simp [stepOp_clean_legal (some k) ps o h1,
          stepOps_clean_legal k ps os h2]
      | stuck => rw [h2] at h; simp at h
      | rewritten x => rw [h2] at h; simp at h
    | stuck => rw [h1] at h; simp at h
    | rewritten x => rw [h1] at h; simp at h
end

/-- An operation accepted by the per-instance legality check cannot be one
of the five unconditionally illegal memref ops. -/
theorem legalOpShallow_not_banned (parent : Option OpKind) (op : Op)
    (h : legalOpShallow parent op = true) : isBannedMemrefOp op.kind = false := by
  obtain ⟨k, o, r, regs⟩ := op
  cases k <;> simp_all [legalOpShallow, isBannedMemrefOp]

mutual
/-- A fully legal operation subtree holds none of the five unconditionally
illegal memref ops. -/
theorem opLegal_no_banned (parent : Option OpKind) (o : Op)
    (h : opLegal parent o = true) :
    opContainsKind isBannedMemrefOp o = false := by
  match o with
  | .mk k op r regs =>
    rw [opLegal] at h
    rw [opContainsKind]
    simp only [Bool.and_eq_true] at h
    have hk := legalOpShallow_not_banned parent (.mk k op r regs) h.1
    rw [Op.kind_mk] at hk
    simp [hk, regionsLegal_no_banned k regs h.2]

/-- Fully legal regions hold none of the banned memref ops. -/
theorem regionsLegal_no_banned (k : OpKind) (regs : List Region)
    (h : regionsLegal k regs = true) :
    regionsContainKind isBannedMemrefOp regs = false := by
  match regs with
  | [] => rw [regionsContainKind]
  | r :: rs =>
    rw [regionsLegal] at h
    rw [regionsContainKind]
    simp only [Bool.and_eq_true] at h
    simp [regionLegal_no_banned k r h.1, regionsLegal_no_banned k rs h.2]

/-- A fully legal region holds none of the banned memref ops. -/
theorem regionLegal_no_banned (k : OpKind) (r : Region)
    (h : regionLegal k r = true) :
    regionContainsKind isBannedMemrefOp r = false := by
  match r with
  | .mk args body =>
    rw [regionLegal] at h
    rw [regionContainsKind]
    exact opsLegal_no_banned k body h

/-- A fully legal block holds none of the banned memref ops. -/
theorem opsLegal_no_banned (k : OpKind) (l : List Op)
    (h : opsLegal k l = true) :
    opsContainKind isBannedMemrefOp l = false := by
  match l with
  | [] => rw [opsContainKind]
  | o :: os =>
    rw [opsLegal] at h
    rw [opsContainKind]
    simp only [Bool.and_eq_true] at h
    simp [opLegal_no_banned (some k) o h.1, opsLegal_no_banned k os h.2]
end

/-- The driver loop reports `legal` only for a module every operation of
which satisfies the legality oracle. -/
theorem driverLoop_legal_moduleLegal (ps : List Pattern) :
    ∀ fuel m out, driverLoop ps fuel m = .legal out → moduleLegal out = true := by
  intro fuel
  induction fuel with
  | zero => intro m out h; rw [driverLoop] at h; exact absurd h (by simp)
  | succ n ih =>
    intro m out h
    rw [driverLoop] at h
    cases h1 : stepOps (some .builtin_module) ps m with
    | clean =>
      rw [h1] at h
      cases h
      exact stepOps_clean_legal .builtin_module ps m h1
    | stuck => rw [h1] at h; exact absurd h (by simp)
    | rewritten m2 => rw [h1] at h; exact ih m2 out h

/-- `applyPartialConversion` reports `legal` only for fully legal modules. -/
theorem applyPartialConversion_legal (ps : List Pattern) (m out : List Op)
    (h : applyPartialConversion ps m = .legal out) : moduleLegal out = true :=
  driverLoop_legal_moduleLegal ps (convFuel ps m) m out h

/-- Anything in the processed remainder survives into the flushed list. -/
theorem mem_flushRun (o : Op) (run done : List Op) (h : o ∈ done) :
    o ∈ flushRun run done := by
  cases run with
  | nil => exact h
  | cons a as => exact List.mem_cons_of_mem _ h

/-- A sibling operation the wrap set does not claim survives the run
grouping in place (it is never moved into a streamify region). -/
theorem mem_groupRuns_of_not_wrapped (l : List Op) (o : Op) (hm : o ∈ l)
    (hw : needsWrap o = false) : o ∈ groupRuns l := by
  rw [groupRuns]
  apply mem_flushRun
  induction l with
  | nil => cases hm
  | cons a as ih =>
    rw [groupRunsCore]
    rcases List.mem_cons.mp hm with rfl | hmem
    · simp only [hw, Bool.false_eq_true, if_false]
      exact List.mem_cons_self _ _
    · by_cases ha : needsWrap a = true
      · simp only [ha, if_true]
        exact ih hmem
      · simp only [Bool.not_eq_true] at ha
        simp only [ha, Bool.false_eq_true, if_false]
        exact List.mem_cons_of_mem _ (mem_flushRun o _ _ (ih hmem))

/-! ## Concrete operations used by the witnesses -/

/-- A `memref.alloc` op, unconditionally illegal for the target. -/
def allocEx : Op := .mk .memref_alloc [] [.memref] []

/-- A `func.func` with one scalar argument whose body holds an alloc. -/
def funcAllocEx : Op := .mk .func_func [.scalar "f32"] [] [.mk [] [allocEx]]

/-- A `func.func` with one scalar argument and an empty body. -/
def funcEmptyEx : Op := .mk .func_func [.scalar "f32"] [] [.mk [] []]

/-- A pattern erasing `memref.alloc` ops (a stand-in lowering rule). -/
def killAllocEx : Pattern :=
  ⟨1, fun o => o.kind = .memref_alloc, fun _ => []⟩

/-- A `gpu` dialect op (destination vocabulary, never wrapped). -/
def gpuOpEx : Op := .mk (.gpu_op "launch_func") [] [] []

/-! ## The claims -/

/-- C1: if the pass reports success (does not signal pass failure), every
operation in the resulting module satisfies the Legality Oracle; in
particular, no `memref.reinterpret_cast`, `memref.view`, `memref.alloca`,
`memref.alloc` or `memref.dealloc` operation remains anywhere in the output
graph. -/
theorem claim1_success_all_legal (ps : List Pattern) (m out : List Op)
    (h : runOnOperation ps m = .success out) :
    moduleLegal out = true ∧ opsContainKind isBannedMemrefOp out = false := by
  rw [runOnOperation] at h
  cases ha : applyPartialConversion ps (wrapModule m) with
  | stuck => rw [ha] at h; cases h
  | legal o =>
    rw [ha] at h
    cases h
    have hl := applyPartialConversion_legal ps (wrapModule m) out ha
    exact ⟨hl, opsLegal_no_banned .builtin_module out hl⟩

/-- C1 witness: the pass succeeds on a module holding one function with an
alloc, given a pattern erasing allocs; the output is fully legal and free of
the banned memref ops. -/
theorem claim1_witness :
    moduleLegal [.mk .func_func [.scalar "f32"] [] [.mk [] []]] = true ∧
    opsContainKind isBannedMemrefOp
      [.mk .func_func [.scalar "f32"] [] [.mk [] []]] = false :=
  claim1_success_all_legal [killAllocEx] [funcAllocEx]
    [.mk .func_func [.scalar "f32"] [] [.mk [] []]] rfl

/-- C2: if after the conversion at least one operation remains illegal with
no applicable pattern (the driver is stuck), the pass as a whole fails —
`signalPassFailure` is the outcome — and no partially-converted graph is
returned as a valid result of the pass. -/
theorem claim2_stuck_pass_fails (ps : List Pattern) (m : List Op)
    (h : applyPartialConversion ps (wrapModule m) = .stuck) :
    runOnOperation ps m = .failure ∧
    ∀ out, runOnOperation ps m ≠ .success out := by
  rw [runOnOperation, h]
  exact ⟨rfl, fun out hc => by cases hc⟩

/-- C2 witness: with no pattern registered, a module holding a function with
an alloc gets stuck, and the pass fails on it. -/
theorem claim2_witness :
    runOnOperation [] [funcAllocEx] = .failure ∧
    ∀ out, runOnOperation [] [funcAllocEx] ≠ .success out :=
  claim2_stuck_pass_fails [] [funcAllocEx] rfl

/-- C3: for every operation whose kind the conversion target does not
classify explicitly (not one of the five listed memref ops, `func.func`,
`tfrt_gpu.streamify`, the tfrt call/return/while ops, the func call/return
ops, or `memref.load`), the legality oracle judges it legal if and only if
the wrap set does not claim it, i.e. iff `wrap_target.isLegal(op)` is
false. -/
theorem claim3_default_rule (parent : Option OpKind) (op : Op)
    (h : explicitlyClassified op.kind = false) :
    legalOpShallow parent op = ! wrapTargetIsLegal op.kind := by
  obtain ⟨k, o, r, regs⟩ := op
  cases k <;> first
    | rfl
    | simp [explicitlyClassified] at h

/-- C3 witness: `lmhlo.all_gather` is not explicitly classified; being
claimed by the wrap set, the oracle judges it illegal. -/
theorem claim3_witness :
    legalOpShallow none (Op.mk .lmhlo_all_gather [.memref] [] []) =
      ! wrapTargetIsLegal (Op.mk .lmhlo_all_gather [.memref] [] []).kind :=
  claim3_default_rule none (Op.mk .lmhlo_all_gather [.memref] [] []) rfl

/-- C4: the region wrapper (streamify restructuring) runs first,
restructuring the operation graph, and only afterwards are the pattern
registry and type converter handed to the conversion driver for fixpoint
rewriting: the pass factors as the wrapper followed by the driver phase, and
in the statement order of `runOnOperation` the streamify population precedes
`applyPartialConversion`. -/
theorem claim4_wrap_before_driver :
    (∀ (ps : List Pattern) (m : List Op),
      runOnOperation ps m = conversionPhase ps (wrapModule m)) ∧
    List.indexOf .populateStreamify runOnOperationTrace <
      List.indexOf .applyConversion runOnOperationTrace := by
  refine ⟨fun ps m => ?_, by decide⟩
  rw [runOnOperation, conversionPhase]

/-- C5: the "needs async context" wrap set claims exactly the operations of
the lmhlo_gpu dialect, the twelve listed lmhlo operations, and the TFRT ops
added inside `populateStreamifyConversionPatterns`; an operation already
legal in the destination vocabulary (one lowering to the gpu dialect) is
never claimed, and an unclaimed operation is never moved into a streamify
region by the wrapper. -/
theorem claim5_wrap_set :
    (∀ k, wrapTargetIsLegal k =
      (isLmhloGpuDialectOp k || isListedLmhloOp k || streamifyAddedTfrtOp k)) ∧
    (∀ (s : String) (o r : List Ty) (regs : List Region),
      needsWrap (Op.mk (.gpu_op s) o r regs) = false) ∧
    (∀ (l : List Op) (o : Op), o ∈ l → needsWrap o = false →
      o ∈ groupRuns l) := by
  exact ⟨fun k => rfl, fun s o r regs => rfl, mem_groupRuns_of_not_wrapped⟩

/-- C5 witness: a `gpu.launch_func` op is not claimed and survives run
grouping in place next to a wrapped `lmhlo.all_gather`. -/
theorem claim5_witness :
    gpuOpEx ∈ groupRuns [gpuOpEx, .mk .lmhlo_all_gather [.memref] [] []] :=
  claim5_wrap_set.2.2 [gpuOpEx, .mk .lmhlo_all_gather [.memref] [] []]
    gpuOpEx (List.mem_cons_self _ _) rfl

/-- C6: a `func.func` operation is judged legal by the legality oracle
exactly when its full function signature passes the type converter's
`isSignatureLegal` and (as the code additionally requires) its body region
is legal for the converter; a `tfrt_gpu.streamify` operation is judged legal
if and only if its nested body region is fully converted (`converter.isLegal`
on the body). -/
theorem claim6_dynamic_legality (parent : Option OpKind) (o r : List Ty)
    (regs : List Region) :
    (legalOpShallow parent (.mk .func_func o r regs) = true ↔
      isSignatureLegal o r = true ∧ regionsArgsLegal regs = true) ∧
    (legalOpShallow parent (.mk .tfrt_gpu_streamify o r regs) = true ↔
      regionsArgsLegal regs = true) := by
  constructor
  · rw [legalOpShallow]
    simp [Bool.and_eq_true]
  · rw [legalOpShallow]
    simp

/-- C7: a `memref.load` operation is accepted by the legality oracle if and
only if its immediate parent operation is a `tfrt_gpu.streamify` op; a
`memref.load` anywhere else is illegal. -/
theorem claim7_load_parent_streamify (parent : Option OpKind) (op : Op)
    (h : op.kind = .memref_load) :
    (legalOpShallow parent op = true ↔ parent = some .tfrt_gpu_streamify) := by
  obtain ⟨k, o, r, regs⟩ := op
  rw [Op.kind_mk] at h
  subst h
  rw [legalOpShallow]
  cases parent with
  | none => simp [parentIsStreamify]
  | some pk => cases pk <;> simp [parentIsStreamify]

/-- C7 witness: a load directly inside a streamify region is legal. -/
theorem claim7_witness :
    legalOpShallow (some .tfrt_gpu_streamify)
      (Op.mk .memref_load [.gpuBuffer] [.scalar "f32"] []) = true :=
  (claim7_load_parent_streamify (some .tfrt_gpu_streamify)
    (Op.mk .memref_load [.gpuBuffer] [.scalar "f32"] []) rfl).mpr rfl

/-- C8: the pass declares exactly the destination operation vocabularies it
may introduce as dependent dialects — the gpu dialect, the TFRT dialect, the
TFRT-GPU dialect and the XLIR dialect. -/
theorem claim8_dependent_dialects (d : Dialect) :
    d ∈ dependentDialects ↔
      (d = .gpu ∨ d = .tfrt ∨ d = .tfrt_gpu ∨ d = .xlir) := by
  cases d <;> decide

/-- C8 witness: the gpu dialect is declared. -/
theorem claim8_witness : Dialect.gpu ∈ dependentDialects :=
  (claim8_dependent_dialects .gpu).mpr (Or.inl rfl)

/-- C9: type conversion is deterministic within one pass invocation — the
nine rule providers share the one `TypeConverter` instance, so for any two
values sharing a source type, the converted types are equal regardless of
which provider's rule triggers the conversion. -/
theorem claim9_converter_deterministic (p1 p2 : Provider) (t1 t2 : Ty)
    (h : t1 = t2) : providerConvert p1 t1 = providerConvert p2 t2 := by
  subst h
  cases p1 <;> cases p2 <;> rfl

/-- C9 witness: the memref type converts identically through the ccl and
gemm providers. -/
theorem claim9_witness :
    providerConvert .ccl .memref = providerConvert .gemm .memref :=
  claim9_converter_deterministic .ccl .gemm .memref .memref rfl

/-- C10: for any finite input module and finite pattern set, the conversion
driver terminates — it runs at most its finite fuel (a function of graph
size and pattern count) and ends in the Legal state, with every operation
accepted by the oracle, or in the Stuck state; it never loops forever. -/
theorem claim10_driver_terminates (ps : List Pattern) (m : List Op) :
    applyPartialConversion ps m = driverLoop ps (convFuel ps m) m ∧
    (applyPartialConversion ps m = .stuck ∨
      ∃ out, applyPartialConversion ps m = .legal out ∧
        moduleLegal out = true) := by
  refine ⟨rfl, ?_⟩
  cases h : applyPartialConversion ps m with
  | stuck => exact Or.inl rfl
  | legal out =>
    exact Or.inr ⟨out, rfl, applyPartialConversion_legal ps m out h⟩

end LmhloToGpu
